import Mathlib

/-!
Verification of the vote-aggregation and geo-search logic of the team-meal-planner
repository, as a shallow embedding in Lean.

Part 1 models the vote aggregation engine:
* `calculateWinner` from `src/components/NextWeekView.tsx` (lines 50-73),
* the per-suggestion statistics (`totalScore`, `voteCount`, `averageRank`) and the
  ranked results list from `src/components/VotingResults.tsx` (lines 27-56) and
  `src/components/RestaurantSorting.tsx` (lines 40-64, 98-102).

The components receive week-scoped lists of records, so the embedded record types keep
exactly the fields those computations read (identifier fields and the attendance flag);
week identifiers, timestamps and display-only fields do not influence the computations
and are omitted.

JavaScript `Map` objects preserve insertion order, so the score map built by
`calculateWinner` is modelled as an association list to which `addVote` either adds a
rank in place or appends a fresh entry, exactly as `scoreMap.set(id, (get(id) || 0) + rank)`
does. `Array.prototype.sort` is stable (ECMAScript 2019), so the descending sort by
total score is modelled by `List.mergeSort`, which is stable.
-/

/-- One vote record, as read by the aggregation code: the voting user, the target
suggestion and the rank value (a positive integer in the system). -/
structure Vote where
  user_id : String
  suggestion_id : String
  rank : Nat
deriving DecidableEq

/-- One attendance record for the week: the user and the attendance flag. -/
structure Attendance where
  user_id : String
  is_attending : Bool
deriving DecidableEq

/-- One suggestion, keeping the identifier and the restaurant name. -/
structure Suggestion where
  id : String
  restaurant : String
deriving DecidableEq

/-- Users with a `true` attendance flag, in list order: the source computes
`attendance.filter(a => a.is_attending).map(a => a.user_id)`. -/
def attendingUsers (attendance : List Attendance) : List String :=
  (attendance.filter (fun a => a.is_attending)).map (fun a => a.user_id)

/-- Votes whose voter appears among the attending users:
`votes.filter(v => attendingUsers.includes(v.user_id))`. -/
def relevantVotes (votes : List Vote) (attendance : List Attendance) : List Vote :=
  votes.filter (fun v => (attendingUsers attendance).contains v.user_id)

/-- One step of building the score map:
`scoreMap.set(vote.suggestion_id, (scoreMap.get(vote.suggestion_id) || 0) + vote.rank)`.
A `Map.set` on an existing key updates the value in place (keeping insertion order);
on a fresh key it appends a new entry. -/
def addVote (m : List (String × Nat)) (v : Vote) : List (String × Nat) :=
  if m.any (fun e => e.1 == v.suggestion_id) then
    m.map (fun e => if e.1 == v.suggestion_id then (e.1, e.2 + v.rank) else e)
  else
    m ++ [(v.suggestion_id, v.rank)]

/-- The insertion-ordered score map built by folding the relevant votes:
`relevantVotes.forEach(vote => scoreMap.set(...))`. -/
def scoreMap (votes : List Vote) : List (String × Nat) :=
  votes.foldl addVote []

/-- One step of the winner scan: `if (score > highestScore) { highestScore = score;
winner = suggestionId; }`. -/
def winnerStep (acc : String × Nat) (e : String × Nat) : String × Nat :=
  if acc.2 < e.2 then e else acc

/-- The winner scan over the score map entries, starting from `winner = ""` and
`highestScore = 0`. -/
def selectWinner (entries : List (String × Nat)) : String :=
  (entries.foldl winnerStep ("", 0)).1

/-- The `calculateWinner` function of `NextWeekView.tsx`. -/
def calculateWinner (votes : List Vote) (attendance : List Attendance) : String :=
  selectWinner (scoreMap (relevantVotes votes attendance))

/-- The relevant votes referencing one suggestion:
`relevantVotes.filter(v => v.suggestion_id === suggestion.id)`. -/
def suggestionVotes (votes : List Vote) (attendance : List Attendance) (sid : String) :
    List Vote :=
  (relevantVotes votes attendance).filter (fun v => v.suggestion_id == sid)

/-- Total score of a suggestion:
`suggestionVotes.reduce((sum, vote) => sum + vote.rank, 0)`. -/
def totalScore (votes : List Vote) (attendance : List Attendance) (sid : String) : Nat :=
  (suggestionVotes votes attendance sid).foldl (fun sum v => sum + v.rank) 0

/-- Vote count of a suggestion: `suggestionVotes.length`. -/
def voteCount (votes : List Vote) (attendance : List Attendance) (sid : String) : Nat :=
  (suggestionVotes votes attendance sid).length

/-- Average score of a suggestion:
`voteCount > 0 ? totalScore / voteCount : 0`, with exact division. -/
def averageRank (votes : List Vote) (attendance : List Attendance) (sid : String) : ℚ :=
  if 0 < voteCount votes attendance sid then
    (totalScore votes attendance sid : ℚ) / (voteCount votes attendance sid : ℚ)
  else 0

/-- One row of the results display, carrying a suggestion together with its statistics. -/
structure ResultRow where
  sugg : Suggestion
  totalScore : Nat
  voteCount : Nat
  averageRank : ℚ
deriving DecidableEq

/-- The rows of the results display in suggestion order:
`suggestions.map(suggestion => ({...suggestion, totalScore, averageRank, voteCount}))`. -/
def resultRows (suggestions : List Suggestion) (votes : List Vote)
    (attendance : List Attendance) : List ResultRow :=
  suggestions.map (fun s =>
    { sugg := s
      totalScore := totalScore votes attendance s.id
      voteCount := voteCount votes attendance s.id
      averageRank := averageRank votes attendance s.id })

/-- The comparator of `results.sort((a, b) => b.totalScore - a.totalScore)`:
descending order by total score. -/
def scoreDesc (a b : ResultRow) : Bool := b.totalScore ≤ a.totalScore

/-- The rows sorted by total score descending; `Array.prototype.sort` is stable, and is
modelled by the stable `List.mergeSort`. -/
def sortedResults (suggestions : List Suggestion) (votes : List Vote)
    (attendance : List Attendance) : List ResultRow :=
  (resultRows suggestions votes attendance).mergeSort scoreDesc

/-- The sorted rows paired with their displayed rank:
`results.forEach((result, index) => { result.rank = index + 1 })`. -/
def rankedResults (suggestions : List Suggestion) (votes : List Vote)
    (attendance : List Attendance) : List (ResultRow × Nat) :=
  (sortedResults suggestions votes attendance).enum.map (fun p => (p.2, p.1 + 1))

/-! Spec-side definitions, written from the specification text, for comparison with the
definitions translated from the source. -/

/-- Eligibility per the spec: the voter has an attendance record with
`is_attending = true`. -/
def eligible (attendance : List Attendance) (v : Vote) : Bool :=
  attendance.any (fun a => a.user_id == v.user_id && a.is_attending)

/-- Spec-side total score: the sum of the rank values of exactly those votes referencing
the suggestion whose voter is eligible. -/
def specTotalScore (votes : List Vote) (attendance : List Attendance) (sid : String) :
    Nat :=
  ((votes.filter (fun v => eligible attendance v && v.suggestion_id == sid)).map
    Vote.rank).sum

/-- Spec-side vote count: the number of eligible votes referencing the suggestion. -/
def specVoteCount (votes : List Vote) (attendance : List Attendance) (sid : String) :
    Nat :=
  (votes.filter (fun v => eligible attendance v && v.suggestion_id == sid)).length

/-- Spec-side maximum of the score-map entry values (zero on the empty map). -/
def maxEntryScore (entries : List (String × Nat)) : Nat :=
  entries.foldr (fun e m => max e.2 m) 0

/-- Spec-side winner: the identifier of the earliest-inserted entry attaining the
maximum score, or the empty string when the maximum is zero. -/
def firstMaxWinner (entries : List (String × Nat)) : String :=
  if maxEntryScore entries = 0 then ""
  else ((entries.find? (fun e => e.2 == maxEntryScore entries)).map Prod.fst).getD ""

example : calculateWinner
    [⟨"u1", "A", 3⟩, ⟨"u1", "B", 2⟩, ⟨"u1", "C", 1⟩,
     ⟨"u2", "A", 1⟩, ⟨"u2", "B", 3⟩, ⟨"u2", "C", 2⟩, ⟨"u3", "A", 3⟩]
    [⟨"u1", true⟩, ⟨"u2", true⟩, ⟨"u3", false⟩] = "B" := by decide

example : totalScore
    [⟨"u1", "A", 3⟩, ⟨"u1", "B", 2⟩, ⟨"u1", "C", 1⟩,
     ⟨"u2", "A", 1⟩, ⟨"u2", "B", 3⟩, ⟨"u2", "C", 2⟩, ⟨"u3", "A", 3⟩]
    [⟨"u1", true⟩, ⟨"u2", true⟩, ⟨"u3", false⟩] "A" = 4 := by decide

example : calculateWinner [] [] = "" := by decide

/-! Lemmas relating the source's attendance filter to spec-side eligibility. -/

/-- Membership in the attending-users list is exactly spec-side eligibility of the
voter. -/
lemma contains_attendingUsers (attendance : List Attendance) (u : String) :
    (attendingUsers attendance).contains u
      = attendance.any (fun a => a.user_id == u && a.is_attending) := by
  rw [Bool.eq_iff_iff]
  simp only [attendingUsers, List.contains_iff_exists_mem_beq, List.mem_map,
    List.mem_filter, List.any_eq_true, Bool.and_eq_true, beq_iff_eq]
  constructor
  · rintro ⟨x, ⟨a, ⟨ha, hatt⟩, rfl⟩, hu⟩
    exact ⟨a, ha, hu.symm, hatt⟩
  · rintro ⟨a, ha, hu, hatt⟩
    exact ⟨a.user_id, ⟨a, ⟨ha, hatt⟩, rfl⟩, hu.symm⟩

/-- The source's relevant-votes filter keeps exactly the eligible votes. -/
lemma relevantVotes_eq_filter_eligible (votes : List Vote) (attendance : List Attendance) :
    relevantVotes votes attendance = votes.filter (eligible attendance) := by
  unfold relevantVotes eligible
  apply List.filter_congr
  intro v _
  exact contains_attendingUsers attendance v.user_id

/-- The votes counted for one suggestion are exactly the eligible votes referencing it. -/
lemma suggestionVotes_eq (votes : List Vote) (attendance : List Attendance) (sid : String) :
    suggestionVotes votes attendance sid
      = votes.filter (fun v => eligible attendance v && v.suggestion_id == sid) := by
  unfold suggestionVotes
  rw [relevantVotes_eq_filter_eligible, List.filter_filter]
  apply List.filter_congr
  intro v _
  exact Bool.and_comm _ _

/-- Folding rank addition computes the sum of the ranks. -/
lemma foldl_add_rank (l : List Vote) (n : Nat) :
    l.foldl (fun sum v => sum + v.rank) n = n + (l.map Vote.rank).sum := by
  induction l generalizing n with
  | nil => simp
  | cons v l ih => simp [ih, Nat.add_assoc]

/-- Filtering out the ineligible votes leaves the relevant votes unchanged. -/
lemma relevantVotes_filter_eligible (votes : List Vote) (attendance : List Attendance) :
    relevantVotes (votes.filter (eligible attendance)) attendance
      = relevantVotes votes attendance := by
  rw [relevantVotes_eq_filter_eligible, relevantVotes_eq_filter_eligible,
    List.filter_filter]
  apply List.filter_congr
  intro v _
  exact Bool.and_self _

/-- Filtering out the ineligible votes leaves each suggestion's counted votes
unchanged. -/
lemma suggestionVotes_filter_eligible (votes : List Vote) (attendance : List Attendance)
    (sid : String) :
    suggestionVotes (votes.filter (eligible attendance)) attendance sid
      = suggestionVotes votes attendance sid := by
  unfold suggestionVotes
  rw [relevantVotes_filter_eligible]

/-- C1: the total score of each suggestion is the sum of the rank values of exactly the
votes referencing it whose voter has an attendance record with `is_attending = true`;
votes by non-attending or attendance-absent users contribute nothing to any
suggestion's total score, vote count, or average. -/
theorem totalScore_eligible_only_c1 (votes : List Vote) (attendance : List Attendance)
    (sid : String) :
    totalScore votes attendance sid = specTotalScore votes attendance sid ∧
    voteCount votes attendance sid = specVoteCount votes attendance sid ∧
    totalScore (votes.filter (eligible attendance)) attendance sid
      = totalScore votes attendance sid ∧
    voteCount (votes.filter (eligible attendance)) attendance sid
      = voteCount votes attendance sid ∧
    averageRank (votes.filter (eligible attendance)) attendance sid
      = averageRank votes attendance sid := by
  refine ⟨?_, ?_, ?_, ?_, ?_⟩
  · rw [totalScore, specTotalScore, ← suggestionVotes_eq, foldl_add_rank]
    simp
  · rw [voteCount, specVoteCount, ← suggestionVotes_eq]
  · rw [totalScore, totalScore, suggestionVotes_filter_eligible]
  · rw [voteCount, voteCount, suggestionVotes_filter_eligible]
  · rw [averageRank, averageRank, totalScore, totalScore, voteCount, voteCount,
      suggestionVotes_filter_eligible]

/-- C9: for every suggestion the average score equals the total score divided by the
vote count when the vote count is strictly positive, and equals 0 when the vote count
is 0. -/
theorem averageRank_spec_c9 (votes : List Vote) (attendance : List Attendance)
    (sid : String) :
    (voteCount votes attendance sid = 0 → averageRank votes attendance sid = 0) ∧
    (0 < voteCount votes attendance sid →
      averageRank votes attendance sid
          = (totalScore votes attendance sid : ℚ) / (voteCount votes attendance sid : ℚ) ∧
      averageRank votes attendance sid * (voteCount votes attendance sid : ℚ)
          = (totalScore votes attendance sid : ℚ)) := by
  constructor
  · intro h0
    rw [averageRank, if_neg]
    omega
  · intro hpos
    have hne : (voteCount votes attendance sid : ℚ) ≠ 0 := by
      exact_mod_cast Nat.pos_iff_ne_zero.mp hpos
    rw [averageRank, if_pos hpos]
    exact ⟨rfl, div_mul_cancel₀ _ hne⟩

/-- Witness for C9 at a concrete snapshot with one eligible vote. -/
theorem averageRank_spec_c9_witness :
    averageRank [⟨"u", "A", 3⟩] [⟨"u", true⟩] "A"
        * (voteCount [⟨"u", "A", 3⟩] [⟨"u", true⟩] "A" : ℚ)
      = (totalScore [⟨"u", "A", 3⟩] [⟨"u", true⟩] "A" : ℚ) :=
  ((averageRank_spec_c9 [⟨"u", "A", 3⟩] [⟨"u", true⟩] "A").2 (by decide)).2

/-! Lemmas characterising the winner scan. -/

/-- Unfolding of the entry maximum on a cons. -/
lemma maxEntryScore_cons (e : String × Nat) (l : List (String × Nat)) :
    maxEntryScore (e :: l) = max e.2 (maxEntryScore l) := rfl

/-- The running maximum after the scan is the maximum of the start value and all entry
scores. -/
lemma foldl_winnerStep_snd (l : List (String × Nat)) (w : String) (m : Nat) :
    (l.foldl winnerStep (w, m)).2 = max m (maxEntryScore l) := by
  induction l generalizing w m with
  | nil => simp [maxEntryScore]
  | cons e l ih =>
    rw [List.foldl_cons]
    by_cases h : m < e.2
    · rw [show winnerStep (w, m) e = (e.1, e.2) from by simp [winnerStep, h]]
      rw [ih, maxEntryScore_cons]
      omega
    · rw [show winnerStep (w, m) e = (w, m) from by simp [winnerStep, h]]
      rw [ih, maxEntryScore_cons]
      omega

/-- When no entry score exceeds the start value, the scan keeps its accumulator. -/
lemma foldl_winnerStep_of_le (l : List (String × Nat)) (w : String) (m : Nat)
    (h : maxEntryScore l ≤ m) : l.foldl winnerStep (w, m) = (w, m) := by
  induction l generalizing w m with
  | nil => rfl
  | cons e l ih =>
    rw [maxEntryScore_cons] at h
    rw [List.foldl_cons,
      show winnerStep (w, m) e = (w, m) from by simp [winnerStep]; omega]
    exact ih w m (by omega)

/-- When some entry score exceeds the start value, the scan returns the identifier of
the earliest entry attaining the maximum score. -/
lemma foldl_winnerStep_of_lt (l : List (String × Nat)) (w : String) (m : Nat)
    (h : m < maxEntryScore l) :
    (l.foldl winnerStep (w, m)).1
      = ((l.find? (fun e => e.2 == maxEntryScore l)).map Prod.fst).getD "" := by
  induction l generalizing w m with
  | nil => simp [maxEntryScore] at h
  | cons e l ih =>
    rw [maxEntryScore_cons] at h
    by_cases h1 : m < e.2
    · rw [List.foldl_cons, show winnerStep (w, m) e = (e.1, e.2) from by
        simp [winnerStep, h1]]
      by_cases h2 : maxEntryScore l ≤ e.2
      · have hM : maxEntryScore (e :: l) = e.2 := by rw [maxEntryScore_cons]; omega
        rw [foldl_winnerStep_of_le l e.1 e.2 h2, hM,
          List.find?_cons_of_pos _ (by simp)]
        rfl
      · have hM : maxEntryScore (e :: l) = maxEntryScore l := by
          rw [maxEntryScore_cons]; omega
        rw [hM, List.find?_cons_of_neg _ (by simp; omega)]
        exact ih e.1 e.2 (by omega)
    · have h2 : m < maxEntryScore l := by omega
      have hM : maxEntryScore (e :: l) = maxEntryScore l := by
        rw [maxEntryScore_cons]; omega
      rw [List.foldl_cons,
        show winnerStep (w, m) e = (w, m) from by simp [winnerStep, h1], hM,
        List.find?_cons_of_neg _ (by simp; omega)]
      exact ih w m h2

/-- The winner scan computes the spec-side first-maximum winner. -/
lemma selectWinner_eq_firstMaxWinner (entries : List (String × Nat)) :
    selectWinner entries = firstMaxWinner entries := by
  unfold selectWinner firstMaxWinner
  by_cases h : maxEntryScore entries = 0
  · rw [if_pos h, foldl_winnerStep_of_le entries "" 0 (by omega)]
  · rw [if_neg h]
    exact foldl_winnerStep_of_lt entries "" 0 (by omega)

/-- C2: winner selection scans the insertion-ordered score-map entries and selects the
first entry whose score strictly exceeds the running maximum initialised to zero, so an
entry tying the current maximum never replaces the current winner: the result is the
earliest-inserted entry attaining the maximum score, or no winner when that maximum is
zero. -/
theorem calculateWinner_first_max_c2 (votes : List Vote) (attendance : List Attendance) :
    calculateWinner votes attendance
      = firstMaxWinner (scoreMap (relevantVotes votes attendance)) :=
  selectWinner_eq_firstMaxWinner _

/-! Lemmas relating the score map to per-suggestion rank sums. -/

/-- First-match lookup of an entry value in the score map (zero when absent), mirroring
`scoreMap.get(id) || 0`. -/
def lookupScore (m : List (String × Nat)) (sid : String) : Nat :=
  ((m.find? (fun e => e.1 == sid)).map Prod.snd).getD 0

/-- Sum of the ranks of the votes in a list that reference one suggestion. -/
def sumRanks (votes : List Vote) (sid : String) : Nat :=
  ((votes.filter (fun v => v.suggestion_id == sid)).map Vote.rank).sum

/-- Effect on a lookup of adding a rank to every entry whose key is the vote's
suggestion. -/
lemma lookupScore_map_update (v : Vote) (sid : String) (m : List (String × Nat)) :
    lookupScore
        (m.map (fun e => if e.1 == v.suggestion_id then (e.1, e.2 + v.rank) else e)) sid
      = if (v.suggestion_id == sid) && m.any (fun e => e.1 == sid) then
          lookupScore m sid + v.rank
        else lookupScore m sid := by
  induction m with
  | nil => simp [lookupScore]
  | cons e m ih =>
    by_cases he : e.1 = v.suggestion_id
    · by_cases hv : v.suggestion_id = sid
      · have hbe : (e.1 == v.suggestion_id) = true := beq_iff_eq.mpr he
        have hbes : (e.1 == sid) = true := beq_iff_eq.mpr (by rw [he, hv])
        have hbv : (v.suggestion_id == sid) = true := beq_iff_eq.mpr hv
        simp [lookupScore, List.find?_cons, he, hv, hbe, hbes, hbv]
      · have hbe : (e.1 == v.suggestion_id) = true := beq_iff_eq.mpr he
        have hes : ¬ e.1 = sid := fun hc => hv (by rw [← he, hc])
        have hbes : (e.1 == sid) = false := beq_eq_false_iff_ne.mpr hes
        have hbv : (v.suggestion_id == sid) = false := beq_eq_false_iff_ne.mpr hv
        simp only [List.map_cons]
        simp [lookupScore, List.find?_cons, he, hes, hv, hbe, hbes, hbv] at ih ⊢
        exact ih
    · by_cases hes : e.1 = sid
      · have hv : ¬ v.suggestion_id = sid := fun hc => he (by rw [hes, hc])
        have hbe : (e.1 == v.suggestion_id) = false := beq_eq_false_iff_ne.mpr he
        have hbes : (e.1 == sid) = true := beq_iff_eq.mpr hes
        have hbv : (v.suggestion_id == sid) = false := beq_eq_false_iff_ne.mpr hv
        have hv2 : ¬ sid = v.suggestion_id := fun hc => hv hc.symm
        simp [lookupScore, List.find?_cons, he, hes, hv, hv2, hbe, hbes, hbv]
      · have hbe : (e.1 == v.suggestion_id) = false := beq_eq_false_iff_ne.mpr he
        have hbes : (e.1 == sid) = false := beq_eq_false_iff_ne.mpr hes
        rw [show ((e :: m).any (fun x => x.1 == sid)) = (m.any (fun x => x.1 == sid))
          from by simp [List.any_cons, hbes]]
        simp only [List.map_cons]
        simp [lookupScore, List.find?_cons, he, hes, hbe, hbes] at ih ⊢
        exact ih

/-- Effect of one `addVote` step on a lookup. -/
lemma lookupScore_addVote (m : List (String × Nat)) (v : Vote) (sid : String) :
    lookupScore (addVote m v) sid
      = lookupScore m sid + (if v.suggestion_id == sid then v.rank else 0) := by
  by_cases hany : m.any (fun e => e.1 == v.suggestion_id)
  · rw [addVote, if_pos hany, lookupScore_map_update]
    by_cases hv : v.suggestion_id = sid
    · have hb : (v.suggestion_id == sid) = true := beq_iff_eq.mpr hv
      have hany2 : m.any (fun e => e.1 == sid) = true := by rw [← hv]; exact hany
      simp [hb, hany2]
    · have hb : (v.suggestion_id == sid) = false := beq_eq_false_iff_ne.mpr hv
      simp [hb]
  · rw [addVote, if_neg hany]
    by_cases hv : v.suggestion_id = sid
    · have hfind : m.find? (fun e => e.1 == sid) = none := by
        rw [List.find?_eq_none]
        intro x hx hpx
        apply hany
        apply List.any_eq_true.mpr
        refine ⟨x, hx, ?_⟩
        rw [hv]
        exact hpx
      have hb : (v.suggestion_id == sid) = true := beq_iff_eq.mpr hv
      simp [lookupScore, List.find?_append, List.find?_cons, hfind, hb]
    · have hb : (v.suggestion_id == sid) = false := beq_eq_false_iff_ne.mpr hv
      simp [lookupScore, List.find?_append, List.find?_cons, hb]

/-- Lookups in the folded score map add the matching rank sums to the start map's
lookup. -/
lemma lookupScore_foldl_addVote (votes : List Vote) (m : List (String × Nat))
    (sid : String) :
    lookupScore (votes.foldl addVote m) sid = lookupScore m sid + sumRanks votes sid := by
  induction votes generalizing m with
  | nil => simp [sumRanks]
  | cons v votes ih =>
    rw [List.foldl_cons, ih, lookupScore_addVote]
    have hsum : sumRanks (v :: votes) sid
        = (if v.suggestion_id == sid then v.rank else 0) + sumRanks votes sid := by
      by_cases hv : v.suggestion_id = sid
      · simp [sumRanks, List.filter_cons, hv]
      · simp [sumRanks, List.filter_cons, hv]
    rw [hsum]
    omega

/-- The score map records exactly the per-suggestion rank sums of the folded votes. -/
lemma lookupScore_scoreMap (votes : List Vote) (sid : String) :
    lookupScore (scoreMap votes) sid = sumRanks votes sid := by
  have h := lookupScore_foldl_addVote votes [] sid
  simpa [scoreMap, lookupScore] using h

/-- Updating entry values in place keeps the score map's keys. -/
lemma keys_map_update (m : List (String × Nat)) (v : Vote) :
    (m.map (fun e => if e.1 == v.suggestion_id then (e.1, e.2 + v.rank) else e)).map
        Prod.fst
      = m.map Prod.fst := by
  rw [List.map_map]
  apply List.map_congr_left
  intro e _
  by_cases hc : e.1 = v.suggestion_id <;> simp [hc]

/-- The keys of the score map stay distinct under `addVote`. -/
lemma nodup_keys_addVote (m : List (String × Nat)) (v : Vote)
    (h : (m.map Prod.fst).Nodup) : ((addVote m v).map Prod.fst).Nodup := by
  rw [addVote]
  by_cases hany : m.any (fun e => e.1 == v.suggestion_id)
  · rw [if_pos hany, keys_map_update]
    exact h
  · rw [if_neg hany, List.map_append]
    have hnot : v.suggestion_id ∉ m.map Prod.fst := by
      intro hmem
      obtain ⟨e, he, he2⟩ := List.mem_map.mp hmem
      exact hany (List.any_eq_true.mpr ⟨e, he, by simp [he2]⟩)
    rw [List.nodup_append]
    refine ⟨h, List.nodup_singleton _, ?_⟩
    intro x hx hx2
    simp at hx2
    exact hnot (hx2 ▸ hx)

/-- The keys of the score map are distinct. -/
lemma nodup_keys_scoreMap (votes : List Vote) :
    ((scoreMap votes).map Prod.fst).Nodup := by
  rw [scoreMap]
  have h : ∀ m : List (String × Nat), (m.map Prod.fst).Nodup →
      ((votes.foldl addVote m).map Prod.fst).Nodup := by
    induction votes with
    | nil => intro m hm; exact hm
    | cons v votes ih =>
      intro m hm
      rw [List.foldl_cons]
      exact ih (addVote m v) (nodup_keys_addVote m v hm)
  exact h [] (by simp)

/-- With distinct keys, looking up a member entry's key returns its value. -/
lemma lookupScore_of_mem (m : List (String × Nat)) (h : (m.map Prod.fst).Nodup)
    (e : String × Nat) (he : e ∈ m) : lookupScore m e.1 = e.2 := by
  induction m with
  | nil => cases he
  | cons x m ih =>
    rcases List.mem_cons.mp he with rfl | he2
    · simp [lookupScore, List.find?_cons]
    · have hx : x.1 ∉ m.map Prod.fst := by
        rw [List.map_cons, List.nodup_cons] at h
        exact h.1
      have htail : (m.map Prod.fst).Nodup := by
        rw [List.map_cons, List.nodup_cons] at h
        exact h.2
      have hbne : (x.1 == e.1) = false := by
        rw [beq_eq_false_iff_ne]
        intro hc
        exact hx (hc ▸ List.mem_map_of_mem Prod.fst he2)
      rw [show lookupScore (x :: m) e.1 = lookupScore m e.1 from by
        simp [lookupScore, List.find?_cons, hbne]]
      exact ih htail he2

/-- Every entry value is bounded by the entry maximum. -/
lemma le_maxEntryScore (l : List (String × Nat)) (e : String × Nat) (he : e ∈ l) :
    e.2 ≤ maxEntryScore l := by
  induction l with
  | nil => cases he
  | cons x l ih =>
    rw [maxEntryScore_cons]
    rcases List.mem_cons.mp he with rfl | h2
    · omega
    · have := ih h2
      omega

/-- Every lookup is bounded by the entry maximum. -/
lemma lookupScore_le_max (m : List (String × Nat)) (sid : String) :
    lookupScore m sid ≤ maxEntryScore m := by
  unfold lookupScore
  cases hf : m.find? (fun e => e.1 == sid) with
  | none => simp
  | some e =>
    have := le_maxEntryScore m e (List.mem_of_find?_eq_some hf)
    simpa using this

/-- A nonzero entry maximum is attained by some entry. -/
lemma exists_max_entry (l : List (String × Nat)) (h : maxEntryScore l ≠ 0) :
    ∃ e ∈ l, e.2 = maxEntryScore l := by
  induction l with
  | nil => simp [maxEntryScore] at h
  | cons x l ih =>
    rw [maxEntryScore_cons] at h ⊢
    by_cases hc : maxEntryScore l ≤ x.2
    · exact ⟨x, List.mem_cons_self x l, by omega⟩
    · have h2 : maxEntryScore l ≠ 0 := by omega
      obtain ⟨e, he, hev⟩ := ih h2
      exact ⟨e, List.mem_cons_of_mem x he, by omega⟩

/-- The key of every entry of the folded score map is a key of the start map or the
suggestion of some folded vote. -/
lemma foldl_addVote_key (votes : List Vote) :
    ∀ (m : List (String × Nat)) (e : String × Nat), e ∈ votes.foldl addVote m →
      e.1 ∈ m.map Prod.fst ∨ ∃ v ∈ votes, v.suggestion_id = e.1 := by
  induction votes with
  | nil =>
    intro m e hm
    exact Or.inl (List.mem_map_of_mem Prod.fst hm)
  | cons v votes ih =>
    intro m e hm
    rw [List.foldl_cons] at hm
    rcases ih (addVote m v) e hm with hkey | ⟨w, hw, hws⟩
    · rw [addVote] at hkey
      by_cases hany : m.any (fun x => x.1 == v.suggestion_id)
      · rw [if_pos hany, keys_map_update] at hkey
        exact Or.inl hkey
      · rw [if_neg hany, List.map_append] at hkey
        rcases List.mem_append.mp hkey with h1 | h2
        · exact Or.inl h1
        · have h3 : e.1 = v.suggestion_id := by simpa using h2
          exact Or.inr ⟨v, List.mem_cons_self v votes, h3.symm⟩
    · exact Or.inr ⟨w, List.mem_cons_of_mem v hw, hws⟩

/-- The key of every score-map entry is the suggestion of some folded vote. -/
lemma mem_scoreMap_key (votes : List Vote) (e : String × Nat) (he : e ∈ scoreMap votes) :
    ∃ v ∈ votes, v.suggestion_id = e.1 := by
  rw [scoreMap] at he
  rcases foldl_addVote_key votes [] e he with h1 | h2
  · simp at h1
  · exact h2

/-- The spec-side total score is the rank sum of the relevant votes. -/
lemma specTotalScore_eq_sumRanks (votes : List Vote) (attendance : List Attendance)
    (sid : String) :
    specTotalScore votes attendance sid
      = sumRanks (relevantVotes votes attendance) sid := by
  rw [specTotalScore, sumRanks, relevantVotes_eq_filter_eligible, List.filter_filter]
  rw [List.filter_congr
    (fun v _ => Bool.and_comm (eligible attendance v) (v.suggestion_id == sid))]

/-- C10: `calculateWinner` returns the empty string exactly when no suggestion has a
strictly positive sum of eligible-vote ranks, and a non-empty winner has a strictly
positive eligible score sum that no suggestion's sum exceeds. The hypothesis records
that suggestion identifiers carried by votes are non-empty store-generated identifiers,
so they are distinct from the empty-string sentinel. -/
theorem calculateWinner_positive_max_c10 (votes : List Vote)
    (attendance : List Attendance) (hids : ∀ v ∈ votes, v.suggestion_id ≠ "") :
    (calculateWinner votes attendance = ""
      ↔ ∀ sid, specTotalScore votes attendance sid = 0) ∧
    (calculateWinner votes attendance ≠ "" →
      0 < specTotalScore votes attendance (calculateWinner votes attendance) ∧
      ∀ sid, specTotalScore votes attendance sid
        ≤ specTotalScore votes attendance (calculateWinner votes attendance)) := by
  have hlook : ∀ sid, specTotalScore votes attendance sid
      = lookupScore (scoreMap (relevantVotes votes attendance)) sid := by
    intro sid
    rw [specTotalScore_eq_sumRanks, lookupScore_scoreMap]
  have hwin : calculateWinner votes attendance
      = firstMaxWinner (scoreMap (relevantVotes votes attendance)) :=
    calculateWinner_first_max_c2 votes attendance
  by_cases hM : maxEntryScore (scoreMap (relevantVotes votes attendance)) = 0
  · have hw0 : calculateWinner votes attendance = "" := by
      rw [hwin]
      unfold firstMaxWinner
      rw [if_pos hM]
    have hall : ∀ sid, specTotalScore votes attendance sid = 0 := by
      intro sid
      have h1 := lookupScore_le_max (scoreMap (relevantVotes votes attendance)) sid
      rw [hM] at h1
      rw [hlook sid]
      omega
    exact ⟨⟨fun _ => hall, fun _ => hw0⟩, fun hne => absurd hw0 hne⟩
  · obtain ⟨e0, he0mem, he0val⟩ :=
      exists_max_entry (scoreMap (relevantVotes votes attendance)) hM
    have hfind : ((scoreMap (relevantVotes votes attendance)).find?
        (fun e => e.2 == maxEntryScore (scoreMap (relevantVotes votes attendance)))).isSome := by
      rw [List.find?_isSome]
      exact ⟨e0, he0mem, by simp [he0val]⟩
    obtain ⟨ew, hew⟩ := Option.isSome_iff_exists.mp hfind
    have hewmem : ew ∈ scoreMap (relevantVotes votes attendance) :=
      List.mem_of_find?_eq_some hew
    have hewval : ew.2 = maxEntryScore (scoreMap (relevantVotes votes attendance)) := by
      have h := List.find?_some hew
      simpa using h
    have hwinner : calculateWinner votes attendance = ew.1 := by
      rw [hwin]
      unfold firstMaxWinner
      rw [if_neg hM, hew]
      rfl
    have hwne : ew.1 ≠ "" := by
      obtain ⟨v, hv, hvs⟩ := mem_scoreMap_key _ ew hewmem
      have hvv : v ∈ votes := by
        rw [relevantVotes_eq_filter_eligible] at hv
        exact (List.mem_filter.mp hv).1
      exact hvs ▸ hids v hvv
    have hscore : specTotalScore votes attendance ew.1
        = maxEntryScore (scoreMap (relevantVotes votes attendance)) := by
      rw [hlook ew.1, lookupScore_of_mem _ (nodup_keys_scoreMap _) ew hewmem]
      exact hewval
    constructor
    · constructor
      · intro h
        rw [hwinner] at h
        exact (hwne h).elim
      · intro hall
        have h := hall ew.1
        rw [hscore] at h
        exact (hM h).elim
    · intro _
      rw [hwinner]
      refine ⟨by rw [hscore]; omega, ?_⟩
      intro sid
      rw [hscore, hlook sid]
      exact lookupScore_le_max _ sid

/-- Witness for C10 at a concrete snapshot with two suggestions and one eligible
voter. -/
theorem calculateWinner_positive_max_c10_witness :
    (calculateWinner [⟨"u1", "A", 3⟩, ⟨"u1", "B", 2⟩] [⟨"u1", true⟩] = ""
      ↔ ∀ sid, specTotalScore [⟨"u1", "A", 3⟩, ⟨"u1", "B", 2⟩] [⟨"u1", true⟩] sid = 0) ∧
    (calculateWinner [⟨"u1", "A", 3⟩, ⟨"u1", "B", 2⟩] [⟨"u1", true⟩] ≠ "" →
      0 < specTotalScore [⟨"u1", "A", 3⟩, ⟨"u1", "B", 2⟩] [⟨"u1", true⟩]
        (calculateWinner [⟨"u1", "A", 3⟩, ⟨"u1", "B", 2⟩] [⟨"u1", true⟩]) ∧
      ∀ sid, specTotalScore [⟨"u1", "A", 3⟩, ⟨"u1", "B", 2⟩] [⟨"u1", true⟩] sid
        ≤ specTotalScore [⟨"u1", "A", 3⟩, ⟨"u1", "B", 2⟩] [⟨"u1", true⟩]
          (calculateWinner [⟨"u1", "A", 3⟩, ⟨"u1", "B", 2⟩] [⟨"u1", true⟩])) :=
  calculateWinner_positive_max_c10 [⟨"u1", "A", 3⟩, ⟨"u1", "B", 2⟩] [⟨"u1", true⟩]
    (by decide)

/-- Transitivity of the descending score comparator. -/
lemma scoreDesc_trans (a b c : ResultRow) :
    scoreDesc a b → scoreDesc b c → scoreDesc a c := by
  simp only [scoreDesc, decide_eq_true_eq]
  omega

/-- Totality of the descending score comparator. -/
lemma scoreDesc_total (a b : ResultRow) : scoreDesc a b || scoreDesc b a := by
  simp only [scoreDesc]
  by_cases h : b.totalScore ≤ a.totalScore
  · simp [h]
  · simp [h]
    omega

/-- C4: the displayed ranking lists all the suggestions' rows sorted by total score in
descending order, the displayed ranks are exactly 1..N in that order — no gaps and no
shared ranks — and rows with equal total scores keep their relative input order. -/
theorem ranking_sorted_c4 (suggestions : List Suggestion) (votes : List Vote)
    (attendance : List Attendance) :
    (sortedResults suggestions votes attendance).Perm
        (resultRows suggestions votes attendance) ∧
    (sortedResults suggestions votes attendance).length = suggestions.length ∧
    List.Pairwise (fun a b : ResultRow => b.totalScore ≤ a.totalScore)
        (sortedResults suggestions votes attendance) ∧
    (rankedResults suggestions votes attendance).map Prod.snd
        = (List.range suggestions.length).map (· + 1) ∧
    (∀ a b : ResultRow, [a, b].Sublist (resultRows suggestions votes attendance) →
      a.totalScore = b.totalScore →
      [a, b].Sublist (sortedResults suggestions votes attendance)) := by
  refine ⟨List.mergeSort_perm _ _, ?_, ?_, ?_, ?_⟩
  · rw [sortedResults, List.length_mergeSort, resultRows, List.length_map]
  · have h := List.sorted_mergeSort scoreDesc_trans scoreDesc_total
      (resultRows suggestions votes attendance)
    exact h.imp (fun hab => by simpa [scoreDesc] using hab)
  · rw [rankedResults, List.map_map]
    rw [show (Prod.snd ∘ fun p : Nat × ResultRow => (p.2, p.1 + 1))
        = (fun p : Nat × ResultRow => p.1 + 1) from rfl]
    rw [show ((sortedResults suggestions votes attendance).enum.map
          (fun p : Nat × ResultRow => p.1 + 1))
        = ((sortedResults suggestions votes attendance).enum.map Prod.fst).map
            (· + 1) from by rw [List.map_map]; rfl]
    rw [List.enum_map_fst, sortedResults, List.length_mergeSort, resultRows,
      List.length_map]
  · intro a b hsub heq
    exact List.pair_sublist_mergeSort scoreDesc_trans scoreDesc_total
      (by simp [scoreDesc, heq]) hsub

/-- Witness for C4's stability clause: two rows for the same score stay in input
order. -/
theorem ranking_sorted_c4_witness :
    [⟨⟨"s1", "Alpha"⟩, 0, 0, 0⟩, (⟨⟨"s2", "Beta"⟩, 0, 0, 0⟩ : ResultRow)].Sublist
      (sortedResults [⟨"s1", "Alpha"⟩, ⟨"s2", "Beta"⟩] [] []) :=
  (ranking_sorted_c4 [⟨"s1", "Alpha"⟩, ⟨"s2", "Beta"⟩] [] []).2.2.2.2
    ⟨⟨"s1", "Alpha"⟩, 0, 0, 0⟩ ⟨⟨"s2", "Beta"⟩, 0, 0, 0⟩
    (by rw [show resultRows [⟨"s1", "Alpha"⟩, ⟨"s2", "Beta"⟩] [] []
        = [⟨⟨"s1", "Alpha"⟩, 0, 0, 0⟩, ⟨⟨"s2", "Beta"⟩, 0, 0, 0⟩] from rfl])
    rfl

/-- With no eligible votes the relevant-votes list is empty. -/
lemma relevantVotes_eq_nil (votes : List Vote) (attendance : List Attendance)
    (helig : ∀ v ∈ votes, eligible attendance v = false) :
    relevantVotes votes attendance = [] := by
  rw [relevantVotes_eq_filter_eligible, List.filter_eq_nil_iff]
  intro v hv
  simp [helig v hv]

/-- Counterexample to C3 as stated: with three suggestions, no votes and no attendance
records, winner selection returns the empty string, which is not the identifier of any
of the suggestions — in particular not the first one. -/
theorem zero_votes_counterexample_c3 :
    calculateWinner ([] : List Vote) ([] : List Attendance) = "" ∧
    ([(⟨"s1", "Alpha"⟩ : Suggestion), ⟨"s2", "Beta"⟩, ⟨"s3", "Gamma"⟩].all
      (fun s => s.id != calculateWinner ([] : List Vote) ([] : List Attendance)))
      = true := by
  constructor
  · rfl
  · rfl

/-- C3 (amended): with suggestions but no eligible votes, every suggestion has total
score 0, vote count 0 and average 0, and the displayed ranking preserves the input
order (so the results headline, which shows the first ranked row, shows the first
suggestion); winner selection however returns the empty string — it does not name any
suggestion. -/
theorem zero_votes_all_zero_c3 (suggestions : List Suggestion) (votes : List Vote)
    (attendance : List Attendance) (_hnel : suggestions ≠ [])
    (helig : ∀ v ∈ votes, eligible attendance v = false) :
    (∀ s ∈ suggestions, totalScore votes attendance s.id = 0 ∧
      voteCount votes attendance s.id = 0 ∧ averageRank votes attendance s.id = 0) ∧
    calculateWinner votes attendance = "" ∧
    (sortedResults suggestions votes attendance).map (fun r => r.sugg) = suggestions := by
  have hrel := relevantVotes_eq_nil votes attendance helig
  have hstats : ∀ sid, totalScore votes attendance sid = 0 ∧
      voteCount votes attendance sid = 0 ∧ averageRank votes attendance sid = 0 := by
    intro sid
    have hsv : suggestionVotes votes attendance sid = [] := by
      rw [suggestionVotes, hrel]
      rfl
    refine ⟨?_, ?_, ?_⟩
    · rw [totalScore, hsv]
      rfl
    · rw [voteCount, hsv]
      rfl
    · rw [averageRank, if_neg]
      rw [voteCount, hsv]
      simp
  refine ⟨fun s _ => hstats s.id, ?_, ?_⟩
  · rw [calculateWinner, hrel]
    rfl
  · have hrows : (resultRows suggestions votes attendance).Pairwise
        (fun a b => scoreDesc a b = true) := by
      apply List.pairwise_of_forall_mem_list
      intro a ha b hb
      obtain ⟨sa, _, rfl⟩ := List.mem_map.mp ha
      obtain ⟨sb, _, rfl⟩ := List.mem_map.mp hb
      simp [scoreDesc, (hstats sa.id).1, (hstats sb.id).1]
    rw [sortedResults, List.mergeSort_of_sorted hrows, resultRows, List.map_map]
    rw [show ((fun r : ResultRow => r.sugg) ∘ fun s : Suggestion =>
        ({ sugg := s, totalScore := totalScore votes attendance s.id,
           voteCount := voteCount votes attendance s.id,
           averageRank := averageRank votes attendance s.id } : ResultRow)) = id from rfl]
    exact List.map_id suggestions

/-- Witness for the amended C3 at a concrete snapshot: two suggestions, one vote from a
non-attending user. -/
theorem zero_votes_all_zero_c3_witness :
    (∀ s ∈ [(⟨"s1", "Alpha"⟩ : Suggestion), ⟨"s2", "Beta"⟩],
      totalScore [⟨"u3", "s1", 3⟩] [⟨"u3", false⟩] s.id = 0 ∧
      voteCount [⟨"u3", "s1", 3⟩] [⟨"u3", false⟩] s.id = 0 ∧
      averageRank [⟨"u3", "s1", 3⟩] [⟨"u3", false⟩] s.id = 0) ∧
    calculateWinner [⟨"u3", "s1", 3⟩] [⟨"u3", false⟩] = "" ∧
    (sortedResults [⟨"s1", "Alpha"⟩, ⟨"s2", "Beta"⟩] [⟨"u3", "s1", 3⟩]
        [⟨"u3", false⟩]).map (fun r => r.sugg)
      = [⟨"s1", "Alpha"⟩, ⟨"s2", "Beta"⟩] :=
  zero_votes_all_zero_c3 [⟨"s1", "Alpha"⟩, ⟨"s2", "Beta"⟩] [⟨"u3", "s1", 3⟩]
    [⟨"u3", false⟩] (by decide) (by decide)

/-!
Part 2 models the places proxy (`supabase/functions/places-proxy/index.ts`): the
paginated nearby-search aggregation of `serve` (lines 28-123) and the Haversine
distance `calculateDistance` (lines 171-189).

The upstream service is modelled as a function from request index to response page
(the initial request is page 0). `Deno.env.get("GOOGLE_PLACES_API_KEY")` is modelled
as an `Option String`. The observable behaviour of a run is a pair: the HTTP outcome —
`Except.error` models the HTTP 400 response carrying the error message thrown into the
catch handler — and a trace of page fetches and waits, in order. The `await` of
`setTimeout(resolve, 2000)` before each continuation request is the `delay 2000`
event. The aggregation is parameterised by the distance function `D` filling
`distance_meters`; the deployed instantiation is the rounded Haversine distance
(`placesNearby`).
-/

/-- One result returned by the upstream places service, keeping the name and the
reported location (`geometry.location` flattened); JSON numeric literals are modelled
by rationals. -/
structure PlaceResult where
  name : String
  lat : ℚ
  lng : ℚ
deriving DecidableEq

/-- One page of the upstream nearby-search response. -/
structure GPage where
  status : String
  results : List PlaceResult
  next_page_token : Option String
deriving DecidableEq

/-- One observable step of the aggregation: an upstream page fetch or a wait of the
given number of milliseconds. -/
inductive TraceEvent where
  | fetch
  | delay (ms : Nat)
deriving DecidableEq

/-- A result with the attached rounded distance (`distance_meters`). -/
structure PlaceWithDistance where
  place : PlaceResult
  distance_meters : ℤ
deriving DecidableEq

/-- Origin coordinates of a nearby search (`params.lat`, `params.lng`). -/
structure NearbyParams where
  lat : ℚ
  lng : ℚ
deriving DecidableEq

/-- The page limit of the pagination loop: `const maxPages = 3`. -/
def maxPages : Nat := 3

/-- The continuation loop `while (pageToken && pageCount < maxPages)`: wait 2000 ms,
fetch the next page; on success accumulate its results, take its token and increment
the page count; on failure stop, keeping what was fetched so far. The fuel argument is
`maxPages - pageCount` at every call; it cannot reach zero while the loop condition
holds, so the fuel recursion reproduces the loop exactly. -/
def fetchMorePages (pages : Nat → GPage) :
    Nat → Option String → Nat → List PlaceResult × List TraceEvent
  | 0, _, _ => ([], [])
  | _ + 1, none, _ => ([], [])
  | fuel + 1, some _, pageCount =>
    if pageCount < maxPages then
      let data := pages pageCount
      if data.status == "OK" then
        let next := fetchMorePages pages fuel data.next_page_token (pageCount + 1)
        (data.results ++ next.1, TraceEvent.delay 2000 :: TraceEvent.fetch :: next.2)
      else
        ([], [TraceEvent.delay 2000, TraceEvent.fetch])
    else ([], [])

/-- The comparator of
`resultsWithDistance.sort((a, b) => a.distance_meters - b.distance_meters)`. -/
def distLE (a b : PlaceWithDistance) : Bool := a.distance_meters ≤ b.distance_meters

/-- The nearby-search aggregation of the places proxy, parameterised by the distance
function `D` used to fill `distance_meters`. When the key is missing the handler
throws before any fetch; when the first page's status is not success it throws after
the first fetch; otherwise it paginates, attaches distances, and returns the results
sorted ascending by `distance_meters` (`Array.prototype.sort` is stable, modelled by
the stable `List.mergeSort`). -/
def nearbySearch (D : ℚ → ℚ → ℚ → ℚ → ℤ) (apiKey : Option String)
    (params : NearbyParams) (pages : Nat → GPage) :
    Except String (List PlaceWithDistance) × List TraceEvent :=
  match apiKey with
  | none => (Except.error "Google Places API key not configured", [])
  | some _ =>
    let data := pages 0
    if data.status == "OK" then
      let more := fetchMorePages pages (maxPages - 1) data.next_page_token 1
      let allResults := data.results ++ more.1
      let resultsWithDistance := allResults.map (fun r =>
        { place := r, distance_meters := D params.lat params.lng r.lat r.lng })
      (Except.ok (resultsWithDistance.mergeSort distLE), TraceEvent.fetch :: more.2)
    else
      (Except.error ("Places API error: " ++ data.status), [TraceEvent.fetch])

/-- Number of page fetches in a trace. -/
def fetchCount (t : List TraceEvent) : Nat :=
  t.countP (fun e => e == TraceEvent.fetch)

/-- Checks that every fetch not at the head of the trace is immediately preceded by a
wait of at least 2000 milliseconds. -/
def pacedPairs : List TraceEvent → Bool
  | a :: TraceEvent.fetch :: rest =>
    (match a with
     | TraceEvent.delay d => decide (2000 ≤ d)
     | TraceEvent.fetch => false) && pacedPairs (TraceEvent.fetch :: rest)
  | _ :: b :: rest => pacedPairs (b :: rest)
  | _ => true

/-- The four shapes of trace a nearby-search run can produce. -/
lemma nearbySearch_trace_cases (D : ℚ → ℚ → ℚ → ℚ → ℤ) (apiKey : Option String)
    (params : NearbyParams) (pages : Nat → GPage) :
    (nearbySearch D apiKey params pages).2 = [] ∨
    (nearbySearch D apiKey params pages).2 = [TraceEvent.fetch] ∨
    (nearbySearch D apiKey params pages).2
      = [TraceEvent.fetch, TraceEvent.delay 2000, TraceEvent.fetch] ∨
    (nearbySearch D apiKey params pages).2
      = [TraceEvent.fetch, TraceEvent.delay 2000, TraceEvent.fetch,
         TraceEvent.delay 2000, TraceEvent.fetch] := by
  cases apiKey with
  | none => exact Or.inl rfl
  | some k =>
    by_cases h0 : ((pages 0).status == "OK") = true
    · cases htok0 : (pages 0).next_page_token with
      | none =>
        right; left
        simp [nearbySearch, h0, htok0, fetchMorePages, maxPages]
      | some t1 =>
        by_cases h1 : ((pages 1).status == "OK") = true
        · cases htok1 : (pages 1).next_page_token with
          | none =>
            right; right; left
            simp [nearbySearch, h0, htok0, h1, htok1, fetchMorePages, maxPages]
          | some t2 =>
            right; right; right
            by_cases h2 : ((pages 2).status == "OK") = true <;>
              simp [nearbySearch, h0, htok0, h1, htok1, h2, fetchMorePages, maxPages]
        · right; right; left
          simp [nearbySearch, h0, htok0, h1, fetchMorePages, maxPages]
    · right; left
      simp [nearbySearch, h0]

/-- C5: every nearby aggregation run issues at most 3 page fetches in total — one
initial request plus at most two continuations — and a wait of at least 2000
milliseconds immediately precedes every fetch after the first. -/
theorem nearby_pagination_bounded_c5 (D : ℚ → ℚ → ℚ → ℚ → ℤ) (apiKey : Option String)
    (params : NearbyParams) (pages : Nat → GPage) :
    fetchCount (nearbySearch D apiKey params pages).2 ≤ 3 ∧
    pacedPairs (nearbySearch D apiKey params pages).2 = true := by
  rcases nearbySearch_trace_cases D apiKey params pages with h | h | h | h <;>
    rw [h] <;> exact ⟨by decide, by decide⟩

/-- C6: the nearby search fails — an HTTP 400 response carrying an error message —
exactly when the upstream key is missing, in which case nothing is fetched, or when the
first page's status is not success; a failing continuation page is not fatal:
pagination stops there and the results of every page already fetched are kept and
returned — the first page's results when the first continuation fails, and the first
two pages' results when the second continuation fails. -/
theorem nearby_error_semantics_c6 (D : ℚ → ℚ → ℚ → ℚ → ℤ) (apiKey : Option String)
    (params : NearbyParams) (pages : Nat → GPage) :
    ((∃ msg, (nearbySearch D apiKey params pages).1 = Except.error msg)
      ↔ apiKey = none ∨ (pages 0).status ≠ "OK") ∧
    (apiKey = none → (nearbySearch D apiKey params pages).2 = []) ∧
    (apiKey ≠ none → (pages 0).status = "OK" → (pages 0).next_page_token.isSome →
      (pages 1).status ≠ "OK" →
      ∃ l, (nearbySearch D apiKey params pages).1 = Except.ok l ∧
        l.Perm ((pages 0).results.map (fun r =>
          ⟨r, D params.lat params.lng r.lat r.lng⟩)) ∧
        (nearbySearch D apiKey params pages).2
          = [TraceEvent.fetch, TraceEvent.delay 2000, TraceEvent.fetch]) ∧
    (apiKey ≠ none → (pages 0).status = "OK" → (pages 0).next_page_token.isSome →
      (pages 1).status = "OK" → (pages 1).next_page_token.isSome →
      (pages 2).status ≠ "OK" →
      ∃ l, (nearbySearch D apiKey params pages).1 = Except.ok l ∧
        l.Perm (((pages 0).results ++ (pages 1).results).map (fun r =>
          (⟨r, D params.lat params.lng r.lat r.lng⟩ : PlaceWithDistance))) ∧
        (nearbySearch D apiKey params pages).2
          = [TraceEvent.fetch, TraceEvent.delay 2000, TraceEvent.fetch,
             TraceEvent.delay 2000, TraceEvent.fetch]) := by
  refine ⟨?_, ?_, ?_, ?_⟩
  · cases apiKey with
    | none => simp [nearbySearch]
    | some k =>
      by_cases h0 : ((pages 0).status == "OK") = true
      · have hs : (pages 0).status = "OK" := by simpa using h0
        simp [nearbySearch, h0, hs]
      · have hs : (pages 0).status ≠ "OK" := by simpa using h0
        simp [nearbySearch, h0, hs]
  · intro hk
    subst hk
    rfl
  · intro hk h0 htok h1
    cases apiKey with
    | none => exact (hk rfl).elim
    | some k =>
      obtain ⟨t1, ht1⟩ := Option.isSome_iff_exists.mp htok
      have hb0 : ((pages 0).status == "OK") = true := beq_iff_eq.mpr h0
      have hb1 : ((pages 1).status == "OK") = false := beq_eq_false_iff_ne.mpr h1
      refine ⟨(((pages 0).results.map (fun r =>
        ⟨r, D params.lat params.lng r.lat r.lng⟩)).mergeSort distLE), ?_, ?_, ?_⟩
      · simp [nearbySearch, hb0, ht1, hb1, fetchMorePages, maxPages]
      · exact List.mergeSort_perm _ _
      · simp [nearbySearch, hb0, ht1, hb1, fetchMorePages, maxPages]
  · intro hk h0 htok0 h1 htok1 h2
    cases apiKey with
    | none => exact (hk rfl).elim
    | some k =>
      obtain ⟨t1, ht1⟩ := Option.isSome_iff_exists.mp htok0
      obtain ⟨t2, ht2⟩ := Option.isSome_iff_exists.mp htok1
      have hb0 : ((pages 0).status == "OK") = true := beq_iff_eq.mpr h0
      have hb1 : ((pages 1).status == "OK") = true := beq_iff_eq.mpr h1
      have hb2 : ((pages 2).status == "OK") = false := beq_eq_false_iff_ne.mpr h2
      refine ⟨(((pages 0).results.map (fun r =>
          (⟨r, D params.lat params.lng r.lat r.lng⟩ : PlaceWithDistance)))
        ++ ((pages 1).results.map (fun r =>
          (⟨r, D params.lat params.lng r.lat r.lng⟩ : PlaceWithDistance)))).mergeSort
          distLE, ?_, ?_, ?_⟩
      · simp [nearbySearch, hb0, ht1, hb1, ht2, hb2, fetchMorePages, maxPages]
      · exact (List.mergeSort_perm _ _).trans
          (List.Perm.of_eq (List.map_append _ _ _).symm)
      · simp [nearbySearch, hb0, ht1, hb1, ht2, hb2, fetchMorePages, maxPages]

/-- Example first page: success, one result, a continuation token. -/
def exPage0 : GPage := ⟨"OK", [⟨"Cafe", 0, 0⟩], some "tok"⟩

/-- Example failing continuation page. -/
def exPageBad : GPage := ⟨"INVALID_REQUEST", [], none⟩

/-- Example upstream: a good first page followed by failing continuation pages. -/
def exPages : Nat → GPage := fun i => if i = 0 then exPage0 else exPageBad

/-- Example distance function used to exercise the generic aggregation. -/
def exDist : ℚ → ℚ → ℚ → ℚ → ℤ := fun _ _ _ _ => 0

/-- Example successful second page with a further continuation token. -/
def exPage1 : GPage := ⟨"OK", [⟨"Deli", 1, 1⟩], some "tok2"⟩

/-- Example upstream: two good pages, then failing continuation pages. -/
def exPages2 : Nat → GPage :=
  fun i => if i = 0 then exPage0 else if i = 1 then exPage1 else exPageBad

/-- Witness for C6 at two concrete runs: one whose first continuation page fails — the
run succeeds, keeps the first page's results and stops after the second fetch — and one
whose second continuation page fails — the run succeeds, keeps the first two pages'
results and stops after the third fetch. -/
theorem nearby_error_semantics_c6_witness :
    (∃ l, (nearbySearch exDist (some "key") ⟨0, 0⟩ exPages).1 = Except.ok l ∧
      l.Perm ((exPages 0).results.map (fun r => ⟨r, exDist 0 0 r.lat r.lng⟩)) ∧
      (nearbySearch exDist (some "key") ⟨0, 0⟩ exPages).2
        = [TraceEvent.fetch, TraceEvent.delay 2000, TraceEvent.fetch]) ∧
    (∃ l, (nearbySearch exDist (some "key") ⟨0, 0⟩ exPages2).1 = Except.ok l ∧
      l.Perm (((exPages2 0).results ++ (exPages2 1).results).map
        (fun r => (⟨r, exDist 0 0 r.lat r.lng⟩ : PlaceWithDistance))) ∧
      (nearbySearch exDist (some "key") ⟨0, 0⟩ exPages2).2
        = [TraceEvent.fetch, TraceEvent.delay 2000, TraceEvent.fetch,
           TraceEvent.delay 2000, TraceEvent.fetch]) :=
  ⟨(nearby_error_semantics_c6 exDist (some "key") ⟨0, 0⟩ exPages).2.2.1
      (by decide) (by decide) (by decide) (by decide),
   (nearby_error_semantics_c6 exDist (some "key") ⟨0, 0⟩ exPages2).2.2.2
      (by decide) (by decide) (by decide) (by decide) (by decide) (by decide)⟩

/-- Transitivity of the ascending distance comparator. -/
lemma distLE_trans (a b c : PlaceWithDistance) :
    distLE a b → distLE b c → distLE a c := by
  simp only [distLE, decide_eq_true_eq]
  omega

/-- Totality of the ascending distance comparator. -/
lemma distLE_total (a b : PlaceWithDistance) : distLE a b || distLE b a := by
  simp only [distLE]
  by_cases h : a.distance_meters ≤ b.distance_meters
  · simp [h]
  · simp [h]
    omega

/-- C7: every successful nearby aggregation returns a result list sorted ascending by
its `distance_meters` field — distances are non-decreasing from the first element to
the last. -/
theorem nearby_sorted_by_distance_c7 (D : ℚ → ℚ → ℚ → ℚ → ℤ) (apiKey : Option String)
    (params : NearbyParams) (pages : Nat → GPage) (l : List PlaceWithDistance)
    (h : (nearbySearch D apiKey params pages).1 = Except.ok l) :
    List.Pairwise
      (fun a b : PlaceWithDistance => a.distance_meters ≤ b.distance_meters) l := by
  cases apiKey with
  | none => simp [nearbySearch] at h
  | some k =>
    by_cases h0 : ((pages 0).status == "OK") = true
    · have hl : l = (((pages 0).results.map
            (fun r => (⟨r, D params.lat params.lng r.lat r.lng⟩ : PlaceWithDistance)))
          ++ ((fetchMorePages pages (maxPages - 1) (pages 0).next_page_token 1).1.map
            (fun r => (⟨r, D params.lat params.lng r.lat r.lng⟩ : PlaceWithDistance)))).mergeSort distLE := by
        simp [nearbySearch, h0] at h
        exact h.symm
      have hs := List.sorted_mergeSort distLE_trans distLE_total
        (((pages 0).results.map
            (fun r => (⟨r, D params.lat params.lng r.lat r.lng⟩ : PlaceWithDistance)))
          ++ ((fetchMorePages pages (maxPages - 1) (pages 0).next_page_token 1).1.map
            (fun r => (⟨r, D params.lat params.lng r.lat r.lng⟩ : PlaceWithDistance))))
      rw [hl]
      exact hs.imp (fun hab => by simpa [distLE] using hab)
    · simp [nearbySearch, h0] at h

/-- Witness for C7 at a concrete successful run with one result. -/
theorem nearby_sorted_by_distance_c7_witness :
    List.Pairwise
      (fun a b : PlaceWithDistance => a.distance_meters ≤ b.distance_meters)
      [(⟨⟨"Cafe", 0, 0⟩, 0⟩ : PlaceWithDistance)] :=
  nearby_sorted_by_distance_c7 exDist (some "key") ⟨0, 0⟩ exPages
    [⟨⟨"Cafe", 0, 0⟩, 0⟩]
    (by simp [nearbySearch, exPages, exPage0, exPageBad, exDist, fetchMorePages,
      maxPages])

/-- Model of JavaScript `Math.atan2(y, x)` on the reals. -/
noncomputable def atan2 (y x : ℝ) : ℝ :=
  if 0 < x then Real.arctan (y / x)
  else if x < 0 then
    (if 0 ≤ y then Real.arctan (y / x) + Real.pi else Real.arctan (y / x) - Real.pi)
  else if 0 < y then Real.pi / 2
  else if y < 0 then -(Real.pi / 2)
  else 0

/-- The `a` intermediate value of `calculateDistance`:
`sin(Δφ/2)² + cos(φ1)·cos(φ2)·sin(Δλ/2)²` with `φ = lat·π/180` and the deltas scaled
the same way. -/
noncomputable def haversineA (lat1 lng1 lat2 lng2 : ℝ) : ℝ :=
  Real.sin ((lat2 - lat1) * Real.pi / 180 / 2)
      * Real.sin ((lat2 - lat1) * Real.pi / 180 / 2)
    + Real.cos (lat1 * Real.pi / 180) * Real.cos (lat2 * Real.pi / 180)
      * Real.sin ((lng2 - lng1) * Real.pi / 180 / 2)
      * Real.sin ((lng2 - lng1) * Real.pi / 180 / 2)

/-- The `calculateDistance` function of the places proxy: Haversine great-circle
distance with Earth radius `R = 6371e3` meters and `c = 2·atan2(√a, √(1-a))`. -/
noncomputable def calculateDistance (lat1 lng1 lat2 lng2 : ℝ) : ℝ :=
  6371000 * (2 * atan2 (Real.sqrt (haversineA lat1 lng1 lat2 lng2))
    (Real.sqrt (1 - haversineA lat1 lng1 lat2 lng2)))

/-- The integer `distance_meters` value, `Math.round(distance)`; `Math.round` and
Mathlib's `round` both take half points up. -/
noncomputable def distRound (lat1 lng1 lat2 lng2 : ℝ) : ℤ :=
  round (calculateDistance lat1 lng1 lat2 lng2)

/-- The deployed distance function on the JSON coordinates. -/
noncomputable def distRoundQ (lat1 lng1 lat2 lng2 : ℚ) : ℤ :=
  distRound lat1 lng1 lat2 lng2

/-- The deployed nearby search: the aggregation instantiated with the rounded Haversine
distance. -/
noncomputable def placesNearby (apiKey : Option String) (params : NearbyParams)
    (pages : Nat → GPage) : Except String (List PlaceWithDistance) × List TraceEvent :=
  nearbySearch distRoundQ apiKey params pages

/-- The Haversine `a` value vanishes on coinciding points. -/
lemma haversineA_self (lat lng : ℝ) : haversineA lat lng lat lng = 0 := by
  unfold haversineA
  simp [sub_self]

/-- The Haversine `a` value is symmetric in its two points. -/
lemma haversineA_symm (lat1 lng1 lat2 lng2 : ℝ) :
    haversineA lat1 lng1 lat2 lng2 = haversineA lat2 lng2 lat1 lng1 := by
  unfold haversineA
  have h1 : (lat1 - lat2) * Real.pi / 180 / 2
      = -((lat2 - lat1) * Real.pi / 180 / 2) := by ring
  have h2 : (lng1 - lng2) * Real.pi / 180 / 2
      = -((lng2 - lng1) * Real.pi / 180 / 2) := by ring
  simp only [h1, h2, Real.sin_neg]
  ring

/-- The distance from a point to itself is zero. -/
lemma calculateDistance_self (lat lng : ℝ) : calculateDistance lat lng lat lng = 0 := by
  unfold calculateDistance
  rw [haversineA_self]
  norm_num [atan2, Real.sqrt_zero, Real.sqrt_one, Real.arctan_zero]

/-- The distance is symmetric under swapping origin and destination. -/
lemma calculateDistance_symm (lat1 lng1 lat2 lng2 : ℝ) :
    calculateDistance lat1 lng1 lat2 lng2 = calculateDistance lat2 lng2 lat1 lng1 := by
  unfold calculateDistance
  rw [haversineA_symm]

/-- C8: the attached distance is the Haversine great-circle distance with Earth radius
6371000 meters rounded to an integer number of meters; it is 0 when the origin equals
the result location, and it is symmetric under swapping the origin and destination
arguments. -/
theorem distance_zero_symm_c8 (lat1 lng1 lat2 lng2 : ℝ) :
    distRound lat1 lng1 lat1 lng1 = 0 ∧
    distRound lat1 lng1 lat2 lng2 = distRound lat2 lng2 lat1 lng1 := by
  constructor
  · rw [distRound, calculateDistance_self]
    exact round_zero
  · rw [distRound, distRound, calculateDistance_symm]
